import Mathlib

/-!
# Verification of the aster-dex trading bot core

Shallow embedding of the signed-request execution engine and the position
lifecycle reconciler of `src/services/asterdex.service.js`,
`src/scripts/check-balance.js` (the `PositionService` class) and the risk
sizing module (`calculatePositionParameters`), together with proofs of the
specification's testable properties.

Conventions:
* JavaScript numbers are modelled as `ℤ` (millisecond clock readings,
  nonces) or `ℚ` (prices, quantities, balances); `Math.floor` on an
  integer-valued expression is the identity and is dropped.
* Stateful methods become explicit state-passing functions on structures
  mirroring the class fields.
* Helpers from `src/utils/helpers.js` are not present under `src/`; they
  are modelled from the spec and marked as such in their doc comments.
-/

namespace AsterDex

/-! ## ClockSync (`syncServerTime`, `getServerTime`) -/

/-- The time-synchronisation fields of `AsterdexService`:
`serverTimeOffset` and `lastTimeSyncAt`. -/
structure ClockState where
  serverTimeOffset : ℤ
  lastTimeSyncAt : ℤ
  deriving Repr, DecidableEq

/-- `syncServerTime` (asterdex.service.js:29-52): records `startTime = Date.now()`
before the probe and `endTime = Date.now()` after it, reads
`serverTime = response.serverTime`, computes
`localTime = Math.floor((startTime + endTime) / 2)` and stores
`serverTimeOffset = serverTime - localTime`, `lastTimeSyncAt = Date.now()`.
Local clock readings are nonnegative milliseconds, so `Math.floor` of the
halved sum is `ℕ` floor division. -/
def syncServerTime (startTime endTime : ℕ) (serverTime : ℤ) (syncedAt : ℤ)
    (_s : ClockState) : ClockState :=
  { serverTimeOffset := serverTime - ((startTime + endTime) / 2 : ℕ)
    lastTimeSyncAt := syncedAt }

/-- `getServerTime` (asterdex.service.js:57-59): `Date.now() + this.serverTimeOffset`. -/
def getServerTime (localNow : ℤ) (s : ClockState) : ℤ :=
  localNow + s.serverTimeOffset

/-! ## NonceGenerator (`getNonce`) -/

/-- The nonce-tracking fields of `AsterdexService`: `_lastMs` and `_i`
(initialised to `0` in the constructor). -/
structure NonceState where
  lastMs : ℤ
  i : ℕ
  deriving Repr, DecidableEq

/-- The constructor initialisation `this._lastMs = 0; this._i = 0`. -/
def NonceState.init : NonceState := ⟨0, 0⟩

/-- `getNonce` (asterdex.service.js:71-82) as a state transition on the
`(lastMs, i)` fields, parameterised by the sampled millisecond time
`nowMs = Math.floor(this.getServerTime())`: if `nowMs === _lastMs` the
sequence counter is incremented, otherwise `_lastMs` is reset to `nowMs`
and the counter to `0`; the returned nonce is `nowMs * 1_000_000 + _i`. -/
def getNonce (s : NonceState) (nowMs : ℤ) : NonceState × ℤ :=
  if nowMs = s.lastMs then
    (⟨s.lastMs, s.i + 1⟩, nowMs * 1000000 + (s.i + 1))
  else
    (⟨nowMs, 0⟩, nowMs * 1000000)

/-- The sequence of nonces returned by successive `getNonce` calls that
sample the millisecond times `ms` (in call order). -/
def nonceRun (s : NonceState) : List ℤ → List ℤ
  | [] => []
  | m :: ms => (getNonce s m).2 :: nonceRun (getNonce s m).1 ms

/-- The value encoded by a nonce state: the last returned nonce is always
`lastMs * 10^6 + i` of the post-call state. -/
def NonceState.value (s : NonceState) : ℤ := s.lastMs * 1000000 + s.i

theorem getNonce_snd_eq_value (s : NonceState) (m : ℤ) :
    (getNonce s m).2 = (getNonce s m).1.value := by
  unfold getNonce NonceState.value
  split <;> simp_all

theorem getNonce_fst_lastMs (s : NonceState) (m : ℤ) :
    (getNonce s m).1.lastMs = m := by
  unfold getNonce
  split <;> simp_all

theorem getNonce_fst_i_le (s : NonceState) (m : ℤ) :
    (getNonce s m).1.i ≤ s.i + 1 := by
  unfold getNonce
  split <;> simp

/-- One `getNonce` step strictly increases the encoded value as long as the
sampled time does not go backwards and the sequence counter has not
overflowed a millisecond's nonce range. -/
theorem getNonce_value_lt (s : NonceState) (m : ℤ)
    (hm : s.lastMs ≤ m) (hi : s.i < 1000000) :
    s.value < (getNonce s m).1.value := by
  unfold getNonce NonceState.value
  split
  · simp_all
  · have h1 : s.lastMs + 1 ≤ m := by omega
    simp only
    nlinarith [s.i.cast_nonneg (α := ℤ)]

/-- Generalised run-level monotonicity of `getNonce`: from any state whose
sequence counter leaves room for the remaining calls, a run over
non-decreasing sampled times yields strictly increasing nonces. -/
theorem nonceRun_chain (ms : List ℤ) (s : NonceState)
    (hchain : List.Chain' (· ≤ ·) ms)
    (hbound : s.i + ms.length ≤ 1000000) :
    List.Chain' (· < ·) (nonceRun s ms) := by
  induction ms generalizing s with
  | nil => simp [nonceRun]
  | cons m1 rest ih =>
    cases rest with
    | nil => simp [nonceRun]
    | cons m2 ms2 =>
      have hle : m1 ≤ m2 := (List.chain'_cons.mp hchain).1
      have hchain2 : List.Chain' (· ≤ ·) (m2 :: ms2) := (List.chain'_cons.mp hchain).2
      set s1 := (getNonce s m1).1 with hs1
      have hs1i : s1.i ≤ s.i + 1 := getNonce_fst_i_le s m1
      have hlen : (m1 :: m2 :: ms2).length = ms2.length + 2 := by simp
      have hbound1 : s1.i + (m2 :: ms2).length ≤ 1000000 := by
        simp only [List.length_cons] at hbound ⊢
        omega
      have htail : List.Chain' (· < ·) (nonceRun s1 (m2 :: ms2)) := ih s1 hchain2 hbound1
      have hhead : (getNonce s m1).2 < (getNonce s1 m2).2 := by
        rw [getNonce_snd_eq_value, getNonce_snd_eq_value]
        exact getNonce_value_lt s1 m2 (by rw [hs1, getNonce_fst_lastMs]; exact hle)
          (by simp only [List.length_cons] at hbound; omega)
      have hrun : nonceRun s (m1 :: m2 :: ms2)
          = (getNonce s m1).2 :: (getNonce s1 m2).2 :: nonceRun (getNonce s1 m2).1 ms2 := by
        simp [nonceRun, hs1]
      rw [hrun]
      have htail' : List.Chain' (· < ·) ((getNonce s1 m2).2 :: nonceRun (getNonce s1 m2).1 ms2) := by
        simpa [nonceRun] using htail
      exact List.chain'_cons.mpr ⟨hhead, htail'⟩

/-- C1 counterexample: two `getNonce` calls from the initial state, the
first sampling local time 1000 with clock offset 0 and the second sampling
local time 1001 after a server-time resync changed the offset to −2, return
the nonces 1000000000 and then 999000000 — the second is smaller, so the
returned values are not strictly increasing across an offset-changing
resync. -/
theorem getNonce_not_monotone_across_resync :
    ¬ List.Pairwise (· < ·)
      (nonceRun NonceState.init
        [getServerTime 1000 ⟨0, 0⟩, getServerTime 1001 ⟨-2, 0⟩]) := by
  have hrun : nonceRun NonceState.init
      [getServerTime 1000 ⟨0, 0⟩, getServerTime 1001 ⟨-2, 0⟩]
      = [1000000000, 999000000] := by decide
  rw [hrun]
  norm_num [List.pairwise_cons]

/-- C1 (amended): within one process, the nonces returned by successive
`getNonce` calls are strictly increasing — each strictly greater than every
previously returned value, with the sequence counter resetting to 0 when
the millisecond advances and incrementing within a millisecond — provided
the sampled millisecond timestamps never decrease across the calls (in
particular no server-time resync moves the computed clock backwards) and
at most 10^6 calls are made (so the per-millisecond sequence counter never
spills into the next millisecond's nonce range). -/
theorem getNonce_strictly_increasing (ms : List ℤ)
    (hchain : List.Chain' (· ≤ ·) ms)
    (hlen : ms.length ≤ 1000000) :
    List.Pairwise (· < ·) (nonceRun NonceState.init ms) := by
  have h := nonceRun_chain ms NonceState.init hchain (by simpa [NonceState.init] using hlen)
  exact List.chain'_iff_pairwise.mp h

/-- Witness for C1's amended theorem at the concrete sample times
`[5, 5, 6]` (two calls in the same millisecond, then an advance). -/
theorem getNonce_strictly_increasing_witness :
    List.Chain' (· ≤ ·) [(5 : ℤ), 5, 6] ∧ ([(5 : ℤ), 5, 6]).length ≤ 1000000 ∧
      List.Pairwise (· < ·) (nonceRun NonceState.init [(5 : ℤ), 5, 6]) :=
  ⟨by norm_num [List.chain'_cons], by simp,
    getNonce_strictly_increasing [(5 : ℤ), 5, 6] (by norm_num [List.chain'_cons]) (by simp)⟩

/-- C4: `syncServerTime` records local send time T0 and receive time T1
around one time probe, reads the exchange-reported time Ts, and sets the
stored offset to `Ts - ⌊(T0 + T1) / 2⌋`; immediately after any sync,
`getServerTime` returns the local time plus the stored offset; and a
repeated sync recomputes the offset from the fresh probe alone — its
result does not depend on the previous state. -/
theorem syncServerTime_spec (T0 T1 : ℕ) (Ts syncedAt localNow : ℤ) (s s2 : ClockState)
    (U0 U1 : ℕ) (Us syncedAt2 : ℤ) :
    (syncServerTime T0 T1 Ts syncedAt s).serverTimeOffset = Ts - ((T0 + T1) / 2 : ℕ) ∧
      getServerTime localNow (syncServerTime T0 T1 Ts syncedAt s)
        = localNow + (syncServerTime T0 T1 Ts syncedAt s).serverTimeOffset ∧
      syncServerTime U0 U1 Us syncedAt2 (syncServerTime T0 T1 Ts syncedAt s)
        = syncServerTime U0 U1 Us syncedAt2 s2 :=
  ⟨rfl, rfl, rfl⟩

/-! ## RequestDispatcher rate gate (`signedRequest`, lines 135-141 / 647-653) -/

/-- The suspension computed by the rate-limiting prologue of `signedRequest`:
`timeSinceLastRequest = now - lastRequestTime`; if it is below
`minRequestInterval = 100` the call awaits a timer of
`minRequestInterval - timeSinceLastRequest` milliseconds, else proceeds
immediately. -/
def rateGateWait (lastRequestTime now : ℤ) : ℤ :=
  if now - lastRequestTime < 100 then 100 - (now - lastRequestTime) else 0

/-- The (idealised) dispatch instant of a `signedRequest` call that reaches
the rate gate at local time `now`: the time after the computed suspension,
at which the code re-reads `Date.now()` into `lastRequestTime` and
dispatches. -/
def rateGateDispatch (lastRequestTime now : ℤ) : ℤ :=
  now + rateGateWait lastRequestTime now

/-- C5: for two consecutive `signedRequest` calls from one serialized call
site — the first dispatched at `lastRequestTime` (the value stored by the
code at its dispatch), the second reaching the rate gate at `now` — if the
elapsed time is below the 100 ms `minRequestInterval` the second call waits
exactly the remainder `100 - (now - lastRequestTime)`, and in every case
the second dispatch instant is at least 100 ms after the first, under the
idealised timing model in which the awaited timer fires exactly on
schedule. -/
theorem rateGate_min_spacing (lastRequestTime now : ℤ) :
    (now - lastRequestTime < 100 →
        rateGateWait lastRequestTime now = 100 - (now - lastRequestTime)) ∧
      100 ≤ rateGateDispatch lastRequestTime now - lastRequestTime := by
  unfold rateGateDispatch rateGateWait
  constructor
  · intro h
    simp [h]
  · split <;> omega

/-! ## ErrorClassifier (`handleApiError`, lines 211-249) and the
non-retrying `signedRequest` failure path -/

/-- A structured exchange error response (`error.response` with
`data.code` / `data.msg`), or none for a transport-level failure. -/
structure ErrResponse where
  status : ℤ
  code : Option ℤ
  msg : String
  deriving Repr, DecidableEq

/-- The typed outcome surfaced by `handleApiError`, mirroring the `Error`
messages thrown in each branch of asterdex.service.js:211-249. -/
inductive ApiOutcome where
  /-- the `-1000` / `-1021` branch: a forced `syncServerTime` ran, then a
  retryable time-sync error is thrown (the deliberate
  `Time sync error ... please retry` throw is caught by the branch's own
  `catch`, so the surfaced message is wrapped in `Time sync failed:`). -/
  | timeSyncRetry (resynced : Bool) (msg : String)
  /-- the `-429` / HTTP 429 branch, after absorbing a 1 s cooldown. -/
  | rateLimited
  /-- the `-2019` branch. -/
  | insufficientMargin (msg : String)
  /-- the `-4131` branch. -/
  | orderRejected (msg : String)
  /-- any other structured exchange error. -/
  | generic (code : Option ℤ) (msg : String)
  /-- no structured response: the network error is rethrown as-is. -/
  | network (msg : String)
  deriving Repr, DecidableEq

/-- The side effects and surfaced outcome of one `handleApiError` call.
`timeProbes` counts forced `syncServerTime` invocations (each performing
exactly one unauthenticated `GET /fapi/v1/time` probe, see
asterdex.service.js:29-52); `cooldownMs` is the absorbed wait. -/
structure ErrorHandling where
  timeProbes : ℕ
  cooldownMs : ℕ
  outcome : ApiOutcome
  deriving Repr, DecidableEq

/-- `handleApiError` (asterdex.service.js:211-249) as a function of the
optional structured response and of whether the forced `syncServerTime`
probe succeeds (`syncOk`). Every structured branch throws; the function
returns the surfaced outcome together with its side effects. -/
def handleApiError (response : Option ErrResponse) (syncOk : Bool)
    (networkMsg : String) : ErrorHandling :=
  match response with
  | none => ⟨0, 0, .network networkMsg⟩
  | some r =>
    if r.code = some (-1000) ∨ r.code = some (-1021) then
      if syncOk then
        ⟨1, 0, .timeSyncRetry true
          ("Time sync failed: Time sync error: " ++ r.msg
            ++ ". Time has been resynced, please retry.")⟩
      else
        ⟨1, 0, .timeSyncRetry false ("Time sync failed: " ++ r.msg)⟩
    else if r.code = some (-429) ∨ r.status = 429 then
      ⟨0, 1000, .rateLimited⟩
    else if r.code = some (-2019) then
      ⟨0, 0, .insufficientMargin r.msg⟩
    else if r.code = some (-4131) then
      ⟨0, 0, .orderRejected r.msg⟩
    else
      ⟨0, 0, .generic r.code r.msg⟩

/-- The observable trace of one `signedRequest` call (asterdex.service.js:130-191):
how many times the original request was dispatched over HTTP, how many
forced time probes ran, and the final result. -/
structure DispatchTrace where
  httpDispatches : ℕ
  timeProbes : ℕ
  result : Except ApiOutcome String
  deriving Repr

/-- The dispatch-and-error-handling skeleton of `signedRequest`: the request
is dispatched once; on success the body is returned; on failure
`handleApiError` runs once and its thrown outcome propagates to the caller
(`catch (error) { await this.handleApiError(error); throw error; }` — there
is no retry loop). `transport` is the outcome of the single axios dispatch. -/
def signedRequestDispatch (transport : Except (Option ErrResponse × String) String)
    (syncOk : Bool) : DispatchTrace :=
  match transport with
  | .ok body => ⟨1, 0, .ok body⟩
  | .error (response, networkMsg) =>
    let h := handleApiError response syncOk networkMsg
    ⟨1, h.timeProbes, .error h.outcome⟩

/-- C3: when a signed request fails with exchange error code −1021 and the
forced resync probe succeeds, `signedRequest` performs exactly one forced
clock resynchronization (one additional unauthenticated time probe),
surfaces a retryable time-sync-classified error to the caller, and does not
auto-retry the original request (exactly one HTTP dispatch). -/
theorem handleApiError_1021_resync (status : ℤ) (msg networkMsg : String) :
    (signedRequestDispatch (.error (some ⟨status, some (-1021), msg⟩, networkMsg)) true).timeProbes
        = 1 ∧
      (signedRequestDispatch (.error (some ⟨status, some (-1021), msg⟩, networkMsg))
            true).httpDispatches = 1 ∧
      (signedRequestDispatch (.error (some ⟨status, some (-1021), msg⟩, networkMsg)) true).result
        = .error (.timeSyncRetry true
            ("Time sync failed: Time sync error: " ++ msg
              ++ ". Time has been resynced, please retry.")) := by
  refine ⟨?_, rfl, ?_⟩ <;>
    simp [signedRequestDispatch, handleApiError]

/-! ## Risk sizing (`calculatePositionParameters`) -/

/-- Trade direction; the source validates that the string is `'LONG'` or
`'SHORT'` and throws otherwise, so the embedding uses an inductive type and
that validation branch is vacuous. -/
inductive Direction where
  | LONG
  | SHORT
  deriving Repr, DecidableEq

/-- Modelled from the spec: `isValidNumber` from `src/utils/helpers.js`
(missing from `src/`) — accepts exactly the finite numeric values; every
rational is a finite number, so on this domain it is constantly true. -/
def isValidNumber (_x : ℚ) : Bool := true

/-- Modelled from the spec: `roundQuantity` from `src/utils/helpers.js`
(missing from `src/`) — rounds a quantity down to a whole multiple of the
exchange increment given as its second argument. -/
def roundQuantity (q step : ℚ) : ℚ :=
  if step ≤ 0 then q else ⌊q / step⌋ * step

/-- Modelled from the spec: `roundPrice` from `src/utils/helpers.js`
(missing from `src/`) — rounds a price to the given number of decimal
places. -/
def roundPrice (p : ℚ) (precision : ℕ) : ℚ :=
  (round (p * 10 ^ precision) : ℤ) / 10 ^ precision

/-- The `config.risk` block of `src/config/settings.js` (percentage,
leverage, takeProfitPercent, stopLossPercent). -/
structure RiskConfig where
  percentage : ℚ
  leverage : ℚ
  takeProfitPercent : ℚ
  stopLossPercent : ℚ
  deriving Repr, DecidableEq

/-- The symbol-filter object produced by `getSymbolInfo`
(asterdex.service.js:299-330), restricted to the fields
`calculatePositionParameters` can read. `none` models an absent (JS
`undefined`) field. `stepSize` is provided by `getSymbolInfo` from the
LOT_SIZE filter but is never read by `calculatePositionParameters`. -/
structure SymbolInfo where
  tickSize : Option ℚ
  stepSize : Option ℚ
  pricePrecision : Option ℕ
  minQty : Option ℚ
  maxQty : Option ℚ
  deriving Repr, DecidableEq

/-- JS `x || d` defaulting for an optional numeric field: an absent field
and the falsy value `0` both fall back to the default. -/
def jsOr (x : Option ℚ) (d : ℚ) : ℚ :=
  match x with
  | some v => if v = 0 then d else v
  | none => d

/-- `symbolInfo.maxQty || Infinity`: `none` stands for `Infinity` (no upper
clamp). -/
def effMaxQty (si : SymbolInfo) : Option ℚ :=
  match si.maxQty with
  | some v => if v = 0 then none else some v
  | none => none

/-- The error cases thrown by `calculatePositionParameters`
(asterdex.service.js:1110-1220). -/
inductive CalcError where
  | invalidBalance
  | invalidEntryPrice
  | zeroStopDistance
  | insufficientBalance
  deriving Repr, DecidableEq

/-- Step 2 of `calculatePositionParameters`: the stop-loss price from the
fixed percentage offset. -/
def stopLossPriceOf (cfg : RiskConfig) (entryPrice : ℚ) : Direction → ℚ
  | .LONG => entryPrice * (1 - cfg.stopLossPercent / 100)
  | .SHORT => entryPrice * (1 + cfg.stopLossPercent / 100)

/-- Step 7: the take-profit price from the fixed percentage offset. -/
def takeProfitPriceOf (cfg : RiskConfig) (entryPrice : ℚ) : Direction → ℚ
  | .LONG => entryPrice * (1 + cfg.takeProfitPercent / 100)
  | .SHORT => entryPrice * (1 - cfg.takeProfitPercent / 100)

/-- Step 3: `stopLossDistance = Math.abs(entryPrice - stopLossPrice)`. -/
def stopLossDistanceOf (cfg : RiskConfig) (entryPrice : ℚ) (direction : Direction) : ℚ :=
  |entryPrice - stopLossPriceOf cfg entryPrice direction|

/-- The 0.001 USDT `marginTolerance` used in both margin checks. -/
def marginTolerance : ℚ := 1 / 1000

/-- Step 1: `riskAmount = balance * (config.risk.percentage / 100)`. -/
def riskAmountOf (cfg : RiskConfig) (balance : ℚ) : ℚ :=
  balance * (cfg.percentage / 100)

/-- Steps 4-5: the position notional `(riskAmount / stopLossDistance) *
entryPrice`, recomputed from 99.5 % of the balance when the required margin
`positionSize / leverage` exceeds `balance + marginTolerance`. -/
def preClampPositionSize (cfg : RiskConfig) (balance entryPrice : ℚ)
    (direction : Direction) : ℚ :=
  let positionSize := riskAmountOf cfg balance / stopLossDistanceOf cfg entryPrice direction
    * entryPrice
  if positionSize / cfg.leverage > balance + marginTolerance then
    balance * (995 / 1000) * cfg.leverage
  else
    positionSize

/-- Steps 6 and 8: `quantity = positionSize / entryPrice`, rounded with
`roundQuantity(quantity, tickSize)` — the code passes the price increment
`symbolInfo.tickSize`, not the LOT_SIZE `stepSize` — then clamped to
`minQty` / `maxQty` with the notional recomputed on each clamp. Returns
`(quantity, positionSize)` after all clamping. -/
def clampQuantityAndSize (cfg : RiskConfig) (balance entryPrice : ℚ)
    (direction : Direction) (si : SymbolInfo) : ℚ × ℚ :=
  let positionSize := preClampPositionSize cfg balance entryPrice direction
  let tickSize := jsOr si.tickSize (1 / 10000)
  let minQty := jsOr si.minQty 0
  let q1 := roundQuantity (positionSize / entryPrice) tickSize
  let q2 := if q1 < minQty then minQty else q1
  let ps2 := if q1 < minQty then minQty * entryPrice else positionSize
  match effMaxQty si with
  | some mq => if q2 > mq then (mq, mq * entryPrice) else (q2, ps2)
  | none => (q2, ps2)

/-- The final margin check input: `finalRequiredMargin = (quantity *
entryPrice) / leverage` with the fully clamped quantity. -/
def finalRequiredMarginOf (cfg : RiskConfig) (balance entryPrice : ℚ)
    (direction : Direction) (si : SymbolInfo) : ℚ :=
  (clampQuantityAndSize cfg balance entryPrice direction si).1 * entryPrice / cfg.leverage

/-- The `result` object returned by `calculatePositionParameters`. -/
structure PositionParams where
  entryPrice : ℚ
  quantity : ℚ
  positionSize : ℚ
  leverage : ℚ
  requiredMargin : ℚ
  stopLoss : ℚ
  takeProfit : ℚ
  riskAmount : ℚ
  direction : Direction
  deriving Repr, DecidableEq

/-- `calculatePositionParameters` (asterdex.service.js:1110-1220): validates
the inputs, computes risk amount, stop/take prices, notional and margin
with the balance clamp, rounds quantity and prices, clamps to the symbol's
quantity bounds, and either throws `Insufficient balance` when the final
margin exceeds `balance + 0.001` or returns the parameter object. -/
def calculatePositionParameters (cfg : RiskConfig) (balance entryPrice : ℚ)
    (direction : Direction) (si : SymbolInfo) : Except CalcError PositionParams :=
  if ¬ isValidNumber balance ∨ balance ≤ 0 then .error .invalidBalance
  else if ¬ isValidNumber entryPrice ∨ entryPrice ≤ 0 then .error .invalidEntryPrice
  else if stopLossDistanceOf cfg entryPrice direction ≤ 0 then .error .zeroStopDistance
  else
    let pricePrecision := si.pricePrecision.getD 4
    let qs := clampQuantityAndSize cfg balance entryPrice direction si
    let finalRequiredMargin := qs.1 * entryPrice / cfg.leverage
    if finalRequiredMargin > balance + marginTolerance then .error .insufficientBalance
    else
      .ok { entryPrice := roundPrice entryPrice pricePrecision
            quantity := qs.1
            positionSize := qs.2
            leverage := cfg.leverage
            requiredMargin := finalRequiredMargin
            stopLoss := roundPrice (stopLossPriceOf cfg entryPrice direction) pricePrecision
            takeProfit := roundPrice (takeProfitPriceOf cfg entryPrice direction) pricePrecision
            riskAmount := riskAmountOf cfg balance
            direction := direction }

/-- The `config.risk` defaults of `src/config/settings.js`: riskPercentage
2.5, leverage 20, takeProfitPercent 0.5, stopLossPercent 0.3. -/
def defaultRisk : RiskConfig := ⟨5 / 2, 20, 1 / 2, 3 / 10⟩

/-- A symbol whose price tick (0.01) differs from its LOT_SIZE quantity
step (0.001). -/
def si6 : SymbolInfo :=
  { tickSize := some (1 / 100)
    stepSize := some (1 / 1000)
    pricePrecision := some 4
    minQty := none
    maxQty := none }

/-- Evaluation helper: the stop-loss price at entry 100, LONG, default
config. -/
theorem stopLossPrice_default_100_long : stopLossPriceOf defaultRisk 100 .LONG = 997 / 10 := by
  norm_num [stopLossPriceOf, defaultRisk]

/-- Evaluation helper: the stop distance at entry 100, LONG, default
config. -/
theorem stopLossDistance_default_100_long :
    stopLossDistanceOf defaultRisk 100 .LONG = 3 / 10 := by
  rw [stopLossDistanceOf, stopLossPrice_default_100_long,
    show (100 : ℚ) - 997 / 10 = 3 / 10 by norm_num, abs_of_nonneg (by norm_num)]

/-- C6, evaluation at the failing input: with balance 1000, entryPrice 100,
direction LONG and the default risk config, on a symbol with tickSize 0.01
and stepSize 0.001 the unclamped notional is 25000/3 (riskAmount 25, stop
distance 0.3, stop-loss 99.7, take-profit 100.5, no balance clamp), and the
returned quantity is 83.33 — the raw quantity 250/3 rounded down to the
price tick 0.01 — whereas rounding to the symbol's LOT_SIZE step 0.001, as
the claim and the spec state, gives 83.333. The code passes
`symbolInfo.tickSize` to `roundQuantity` and never reads the `stepSize`
that `getSymbolInfo` extracts for it. -/
theorem calc_quantity_rounded_by_tickSize_not_stepSize :
    calculatePositionParameters defaultRisk 1000 100 .LONG si6
        = .ok ⟨100, 8333 / 100, 25000 / 3, 20, 8333 / 20, 997 / 10, 201 / 2, 25, .LONG⟩ ∧
      roundQuantity (25000 / 3 / 100) (si6.stepSize.getD 0) = 83333 / 1000 ∧
      (8333 / 100 : ℚ) ≠ 83333 / 1000 := by
  have hrisk : riskAmountOf defaultRisk 1000 = 25 := by
    norm_num [riskAmountOf, defaultRisk]
  have hpre : preClampPositionSize defaultRisk 1000 100 .LONG = 25000 / 3 := by
    rw [preClampPositionSize, hrisk, stopLossDistance_default_100_long]
    norm_num [defaultRisk, marginTolerance]
  have hclamp : clampQuantityAndSize defaultRisk 1000 100 .LONG si6 = (8333 / 100, 25000 / 3) := by
    rw [clampQuantityAndSize, hpre]
    norm_num [jsOr, si6, effMaxQty, roundQuantity]
  refine ⟨?_, ?_, by norm_num⟩
  · rw [calculatePositionParameters]
    rw [if_neg (by norm_num [isValidNumber]), if_neg (by norm_num [isValidNumber]),
      if_neg (by rw [stopLossDistance_default_100_long]; norm_num)]
    simp only [hclamp]
    rw [if_neg (by norm_num [marginTolerance, defaultRisk])]
    have hep : roundPrice 100 4 = 100 := by norm_num [roundPrice, round_eq]
    have hslr : roundPrice (stopLossPriceOf defaultRisk 100 .LONG) 4 = 997 / 10 := by
      rw [stopLossPrice_default_100_long]
      norm_num [roundPrice, round_eq]
    have htpr : roundPrice (takeProfitPriceOf defaultRisk 100 .LONG) 4 = 201 / 2 := by
      rw [show takeProfitPriceOf defaultRisk 100 .LONG = 201 / 2 by
        norm_num [takeProfitPriceOf, defaultRisk]]
      norm_num [roundPrice, round_eq]
    simp only [Except.ok.injEq, PositionParams.mk.injEq]
    exact ⟨hep, trivial, trivial, rfl, by norm_num [defaultRisk], hslr, htpr, hrisk, trivial⟩
  · norm_num [roundQuantity, si6]

/-- C7: whenever the validated inputs lead, after the balance clamp, the
quantity rounding and the min/max-quantity clamps, to a final required
margin `quantity * entryPrice / leverage` exceeding `balance + 0.001`,
`calculatePositionParameters` fails with the insufficient-balance error and
returns no (not even partial) parameter object. -/
theorem calc_insufficient_balance_throws (cfg : RiskConfig) (balance entryPrice : ℚ)
    (direction : Direction) (si : SymbolInfo)
    (hb : 0 < balance) (he : 0 < entryPrice)
    (hd : 0 < stopLossDistanceOf cfg entryPrice direction)
    (hm : balance + marginTolerance < finalRequiredMarginOf cfg balance entryPrice direction si) :
    calculatePositionParameters cfg balance entryPrice direction si
      = .error .insufficientBalance := by
  unfold finalRequiredMarginOf at hm
  unfold calculatePositionParameters
  rw [if_neg (by simp only [isValidNumber, not_true, false_or, not_le]; exact hb),
    if_neg (by simp only [isValidNumber, not_true, false_or, not_le]; exact he),
    if_neg (not_le.mpr hd)]
  simp only []
  rw [if_pos hm]

/-- A symbol whose `minQty` (1000) dwarfs what a 10 USDT balance can
margin. -/
def siMinClamp : SymbolInfo := ⟨some (1 / 100), some (1 / 1000), some 4, some 1000, none⟩

/-- Evaluation helper: with balance 10 the min-quantity clamp forces
quantity 1000 and final margin 5000 on `siMinClamp`. -/
theorem finalRequiredMargin_siMinClamp :
    finalRequiredMarginOf defaultRisk 10 100 .LONG siMinClamp = 5000 := by
  have hrisk : riskAmountOf defaultRisk 10 = 1 / 4 := by
    norm_num [riskAmountOf, defaultRisk]
  have hpre : preClampPositionSize defaultRisk 10 100 .LONG = 250 / 3 := by
    rw [preClampPositionSize, hrisk, stopLossDistance_default_100_long]
    norm_num [defaultRisk, marginTolerance]
  have hclamp : clampQuantityAndSize defaultRisk 10 100 .LONG siMinClamp = (1000, 100000) := by
    rw [clampQuantityAndSize, hpre]
    norm_num [jsOr, siMinClamp, effMaxQty, roundQuantity]
  rw [finalRequiredMarginOf, hclamp]
  norm_num [defaultRisk]

/-- Witness for C7: balance 10, entry price 100, LONG, default risk config,
and a symbol whose `minQty` is 1000 — the min-quantity clamp pushes the
final margin to 5000, far above the 10.001 bound, and the call fails with
the insufficient-balance error. -/
theorem calc_insufficient_balance_throws_witness :
    (0 : ℚ) < 10 ∧ (0 : ℚ) < 100 ∧
      0 < stopLossDistanceOf defaultRisk 100 .LONG ∧
      10 + marginTolerance < finalRequiredMarginOf defaultRisk 10 100 .LONG siMinClamp ∧
      calculatePositionParameters defaultRisk 10 100 .LONG siMinClamp
        = .error .insufficientBalance :=
  ⟨by norm_num, by norm_num,
    by rw [stopLossDistance_default_100_long]; norm_num,
    by rw [finalRequiredMargin_siMinClamp]; norm_num [marginTolerance],
    calc_insufficient_balance_throws defaultRisk 10 100 .LONG siMinClamp
      (by norm_num) (by norm_num)
      (by rw [stopLossDistance_default_100_long]; norm_num)
      (by rw [finalRequiredMargin_siMinClamp]; norm_num [marginTolerance])⟩

/-! ## PositionReconciler (`PositionService` in check-balance.js) -/

/-- The sign of a direction, +1 for LONG and −1 for SHORT. -/
def dirSign : Direction → ℚ
  | .LONG => 1
  | .SHORT => -1

/-- Modelled from the spec: `calculatePnL` from `src/utils/helpers.js`
(missing from `src/`) — realized P&L = (exit − entry) × quantity ×
sign(direction). -/
def calculatePnL (entryPrice exitPrice quantity : ℚ) (direction : Direction) : ℚ :=
  (exitPrice - entryPrice) * quantity * dirSign direction

/-- Modelled from the spec: `calculatePnLPercent` from
`src/utils/helpers.js` (missing from `src/`) — P&L percent =
(exit − entry) / entry × 100 × sign(direction). -/
def calculatePnLPercent (entryPrice exitPrice : ℚ) (direction : Direction) : ℚ :=
  (exitPrice - entryPrice) / entryPrice * 100 * dirSign direction

/-- One record of `GET /fapi/v3/userTrades` as read by
`handlePositionClosed`: optional `side` string, `buyer` flag, price. -/
structure Trade where
  side : Option String
  buyer : Bool
  price : ℚ
  deriving Repr, DecidableEq

/-- The closing-trade predicate of `handlePositionClosed`
(check-balance.js:183-194): `tradeSide = t.side?.toUpperCase() || ''`,
`isBuyer = t.buyer === true`; a LONG closes with `tradeSide === 'SELL' ||
!isBuyer`, a SHORT with `tradeSide === 'BUY' || isBuyer`. -/
def isCloseTrade (direction : Direction) (t : Trade) : Bool :=
  let tradeSide := (t.side.getD "").toUpper
  match direction with
  | .LONG => tradeSide == "SELL" || !t.buyer
  | .SHORT => tradeSide == "BUY" || t.buyer

/-- A tracked open position as stored by `addOpenPosition`
(check-balance.js:42-59). -/
structure TrackedPosition where
  symbol : String
  direction : Direction
  entryPrice : ℚ
  quantity : ℚ
  takeProfit : ℚ
  stopLoss : ℚ
  orderId : ℕ
  timestamp : ℤ
  tpOrderId : Option ℕ
  slOrderId : Option ℕ
  deriving Repr, DecidableEq

/-- The closed-position snapshot pushed by `addClosedPosition`
(check-balance.js:77-84): the tracked fields plus exit price, P&L, P&L
percent, holding duration and close timestamp. The `formatDuration` helper
is missing from `src/`; the duration is modelled as the raw
`Math.floor((Date.now() - timestamp) / 1000)` seconds it renders. -/
structure ClosedPosition where
  base : TrackedPosition
  exitPrice : ℚ
  pnl : ℚ
  pnlPercent : ℚ
  durationSec : ℤ
  closedAt : ℤ
  deriving Repr, DecidableEq

/-- The state owned by `PositionService`: the `openPositions` map (symbol →
position, insertion-ordered with unique keys) and the append-only
`closedPositions` history. -/
structure PositionState where
  openPositions : List (String × TrackedPosition)
  closedPositions : List ClosedPosition
  deriving Repr, DecidableEq

/-- `Map.get`: the tracked position stored under a symbol. -/
def lookupPos (l : List (String × TrackedPosition)) (s : String) : Option TrackedPosition :=
  (l.find? (fun e => e.1 == s)).map (·.2)

/-- The exit price used by `handlePositionClosed`: the price of the first
fetched trade matching the closing side, else the tracked entry price
(check-balance.js:196). -/
def exitPriceOf (direction : Direction) (trades : List Trade) (entryPrice : ℚ) : ℚ :=
  match trades.find? (isCloseTrade direction) with
  | some t => t.price
  | none => entryPrice

/-- The `closedPositionData` record built by `handlePositionClosed`
(check-balance.js:196-219) with the `closedAt` stamp added by
`addClosedPosition`. -/
def closedRecordOf (now : ℤ) (trades : List Trade) (tracked : TrackedPosition) :
    ClosedPosition :=
  let exitPrice := exitPriceOf tracked.direction trades tracked.entryPrice
  { base := tracked
    exitPrice := exitPrice
    pnl := calculatePnL tracked.entryPrice exitPrice tracked.quantity tracked.direction
    pnlPercent := calculatePnLPercent tracked.entryPrice exitPrice tracked.direction
    durationSec := Int.fdiv (now - tracked.timestamp) 1000
    closedAt := now }

/-- `handlePositionClosed` (check-balance.js:177-239): append the closed
record to the history (`addClosedPosition`), delete the symbol from the
open-position map (`removeOpenPosition`), and notify the external Telegram
collaborator (an external effect, not part of the state). -/
def handlePositionClosed (now : ℤ) (trades : List Trade) (symbol : String)
    (tracked : TrackedPosition) (st : PositionState) : PositionState :=
  { openPositions := st.openPositions.filter (fun e => e.1 != symbol)
    closedPositions := st.closedPositions ++ [closedRecordOf now trades tracked] }

/-- What one poll iteration observes for one symbol: either the
`getOpenPositions` call throws (`fetchErr`), or it reports the
exchange-side position — `none` when the symbol is absent from the
(nonzero-filtered) response, `some amt` otherwise — together with the
result the `getTradeHistory` call would produce on the closure path
(`.error ()` when that fetch throws). -/
inductive SymbolOutcome where
  | fetchErr : SymbolOutcome
  | report (positionAmt : Option ℚ) (trades : Except Unit (List Trade)) : SymbolOutcome

/-- One iteration of the `checkPositions` loop body (check-balance.js:151-168)
for the entry `e`: a thrown fetch error is caught and skipped; if
`!exchangePosition || Math.abs(positionAmt) === 0` the closure handler runs
(whose own `catch` turns a trade-history failure into a logged no-op,
check-balance.js:236-238); otherwise `updatePositionData` only logs, leaving
the state unchanged. -/
def stepSymbol (now : ℤ) (f : String → SymbolOutcome) (st : PositionState)
    (e : String × TrackedPosition) : PositionState :=
  match f e.1 with
  | .fetchErr => st
  | .report none trades =>
    match trades with
    | .ok ts => handlePositionClosed now ts e.1 e.2 st
    | .error _ => st
  | .report (some a) trades =>
    if |a| = 0 then
      match trades with
      | .ok ts => handlePositionClosed now ts e.1 e.2 st
      | .error _ => st
    else
      st

/-- The `checkPositions` loop over an explicit entry snapshot. -/
def checkPositionsEntries (now : ℤ) (f : String → SymbolOutcome)
    (entries : List (String × TrackedPosition)) (st : PositionState) : PositionState :=
  entries.foldl (stepSymbol now f) st

/-- `checkPositions` (check-balance.js:144-172): iterate the loop body over
every tracked entry. (The only mutation a step performs removes the entry
being visited, so folding over the initial snapshot is faithful to
iterating the live `Map`.) -/
def checkPositions (now : ℤ) (f : String → SymbolOutcome) (st : PositionState) : PositionState :=
  checkPositionsEntries now f st.openPositions st

/-- Filtering before a search does not change it when the search predicate
entails the filter predicate. -/
theorem find?_filter_of_imp {α : Type} (l : List α) (p q : α → Bool)
    (h : ∀ x, p x = true → q x = true) : (l.filter q).find? p = l.find? p := by
  induction l with
  | nil => rfl
  | cons x xs ih =>
    by_cases hq : q x = true
    · rw [List.filter_cons_of_pos hq]
      by_cases hp : p x = true
      · rw [List.find?_cons_of_pos _ hp, List.find?_cons_of_pos _ hp]
      · rw [List.find?_cons_of_neg _ hp, List.find?_cons_of_neg _ hp, ih]
    · have hp : ¬ p x = true := fun hpx => hq (h x hpx)
      rw [List.filter_cons_of_neg hq, List.find?_cons_of_neg _ hp, ih]

/-- A search for a key finds nothing after that key has been filtered
out. -/
theorem find?_filter_bne_none (l : List (String × TrackedPosition)) (symbol : String) :
    (l.filter (fun e => e.1 != symbol)).find? (fun e => e.1 == symbol) = none := by
  rw [List.find?_eq_none]
  intro x hx
  have hmem := (List.mem_filter.mp hx).2
  simp only [bne_iff_ne, ne_eq] at hmem
  simp [hmem]

/-- Deleting a present key from a map with `Nodup` keys removes exactly one
entry. -/
theorem filter_bne_length (l : List (String × TrackedPosition)) (symbol : String)
    (hkeys : (l.map Prod.fst).Nodup) (hmem : symbol ∈ l.map Prod.fst) :
    (l.filter (fun e => e.1 != symbol)).length + 1 = l.length := by
  induction l with
  | nil => simp at hmem
  | cons x xs ih =>
    simp only [List.map_cons, List.nodup_cons] at hkeys
    rcases List.mem_cons.mp hmem with heq | htail
    · have hall : ∀ e ∈ xs, (fun e : String × TrackedPosition => e.1 != symbol) e = true := by
        intro e he
        have : e.1 ∈ xs.map Prod.fst := List.mem_map_of_mem Prod.fst he
        simp only [bne_iff_ne, ne_eq]
        intro hcontra
        exact hkeys.1 (by rw [← heq, ← hcontra]; exact this)
      rw [List.filter_cons_of_neg (by simp [heq]), List.filter_eq_self.mpr hall]
      simp
    · have hne : x.1 ≠ symbol := fun hcontra => hkeys.1 (hcontra ▸ htail)
      rw [List.filter_cons_of_pos (by simp [hne])]
      simp only [List.length_cons]
      rw [ih hkeys.2 htail]

/-- C2: if a symbol is tracked as a LONG position and a poll iteration
observes `positionAmt = 0` for it on the exchange (with the closing-trade
fetch returning `trades`), then the closure handling removes that symbol
from the tracked table exactly once (one entry fewer, its key no longer
found), appends exactly one ClosedPosition whose realized P&L is
`(exitPrice − entryPrice) × quantity` (the correct sign for a LONG), and
leaves the table entry of every other symbol unchanged. -/
theorem reconciler_closes_long_exactly_once (now : ℤ) (f : String → SymbolOutcome)
    (st : PositionState) (symbol : String) (tracked : TrackedPosition) (trades : List Trade)
    (hdir : tracked.direction = .LONG)
    (hf : f symbol = .report (some 0) (.ok trades))
    (hkeys : (st.openPositions.map Prod.fst).Nodup)
    (hmem : symbol ∈ st.openPositions.map Prod.fst) :
    lookupPos (stepSymbol now f st (symbol, tracked)).openPositions symbol = none ∧
      (stepSymbol now f st (symbol, tracked)).openPositions.length + 1
        = st.openPositions.length ∧
      (stepSymbol now f st (symbol, tracked)).closedPositions
        = st.closedPositions ++ [closedRecordOf now trades tracked] ∧
      (closedRecordOf now trades tracked).pnl
        = (exitPriceOf .LONG trades tracked.entryPrice - tracked.entryPrice)
            * tracked.quantity ∧
      ∀ s, s ≠ symbol →
        lookupPos (stepSymbol now f st (symbol, tracked)).openPositions s
          = lookupPos st.openPositions s := by
  have hstep : stepSymbol now f st (symbol, tracked)
      = handlePositionClosed now trades symbol tracked st := by
    simp [stepSymbol, hf]
  refine ⟨?_, ?_, ?_, ?_, ?_⟩
  · rw [hstep]
    exact congrArg (Option.map _) (find?_filter_bne_none st.openPositions symbol)
  · rw [hstep]
    exact filter_bne_length st.openPositions symbol hkeys hmem
  · rw [hstep]
    rfl
  · simp [closedRecordOf, calculatePnL, dirSign, hdir]
  · intro s hs
    rw [hstep]
    unfold handlePositionClosed lookupPos
    simp only
    rw [find?_filter_of_imp]
    intro x hx
    simp only [beq_iff_eq] at hx
    simp [bne_iff_ne, hx, hs]

/-- C8: during one reconciler poll cycle, a symbol whose check fails — the
position fetch throws, or the closure handling fails fetching the trade
history — is caught and skipped, and the cycle over the remaining tracked
entries proceeds exactly as it would without the failed entry; a per-symbol
failure never aborts the poll loop (the cycle is a total function on the
state). -/
theorem poll_isolates_per_symbol_errors (now : ℤ) (f : String → SymbolOutcome)
    (st : PositionState) (x : String × TrackedPosition) (xs : List (String × TrackedPosition))
    (hx : f x.1 = .fetchErr ∨ f x.1 = .report none (.error ())) :
    checkPositionsEntries now f (x :: xs) st = checkPositionsEntries now f xs st := by
  rcases hx with h | h <;>
    simp [checkPositionsEntries, stepSymbol, h]

/-- C10: when no trade matching the closing side is found among the fetched
trades, the closure handling appends exactly one ClosedPosition whose exit
price defaults to the tracked entry price, so its realized P&L and P&L
percent are both exactly 0. -/
theorem no_close_trade_zero_pnl (now : ℤ) (trades : List Trade) (symbol : String)
    (tracked : TrackedPosition) (st : PositionState)
    (hfind : trades.find? (isCloseTrade tracked.direction) = none) :
    (handlePositionClosed now trades symbol tracked st).closedPositions
        = st.closedPositions ++ [closedRecordOf now trades tracked] ∧
      (closedRecordOf now trades tracked).exitPrice = tracked.entryPrice ∧
      (closedRecordOf now trades tracked).pnl = 0 ∧
      (closedRecordOf now trades tracked).pnlPercent = 0 := by
  refine ⟨rfl, ?_, ?_, ?_⟩ <;>
    simp [closedRecordOf, exitPriceOf, hfind, calculatePnL, calculatePnLPercent]

/-- A tracked LONG position on BTCUSDT used by the concrete witnesses. -/
def samplePos : TrackedPosition :=
  ⟨"BTCUSDT", .LONG, 100, 2, 105, 99, 1, 0, none, none⟩

/-- A second tracked position on ETHUSDT used by the concrete witnesses. -/
def ethPos : TrackedPosition :=
  ⟨"ETHUSDT", .LONG, 2000, 1, 2100, 1950, 2, 0, none, none⟩

/-- A trade history containing one SELL trade at price 110. -/
def sampleTrades : List Trade := [⟨some "SELL", false, 110⟩]

/-- A tracked-position table holding the two sample positions. -/
def sampleSt : PositionState :=
  ⟨[("BTCUSDT", samplePos), ("ETHUSDT", ethPos)], []⟩

/-- A poll observation: BTCUSDT reported flat (positionAmt 0) with the
sample trade history; every other symbol still open. -/
def sampleF : String → SymbolOutcome := fun s =>
  if s == "BTCUSDT" then .report (some 0) (.ok sampleTrades) else .report (some 1) (.ok [])

/-- Witness for C2 at the sample table: closing BTCUSDT removes exactly its
entry, appends one ClosedPosition with LONG-signed P&L, and leaves
ETHUSDT's entry alone. -/
theorem reconciler_closes_long_exactly_once_witness :
    samplePos.direction = .LONG ∧
      sampleF "BTCUSDT" = .report (some 0) (.ok sampleTrades) ∧
      (sampleSt.openPositions.map Prod.fst).Nodup ∧
      "BTCUSDT" ∈ sampleSt.openPositions.map Prod.fst ∧
      (lookupPos (stepSymbol 5 sampleF sampleSt ("BTCUSDT", samplePos)).openPositions "BTCUSDT"
          = none ∧
        (stepSymbol 5 sampleF sampleSt ("BTCUSDT", samplePos)).openPositions.length + 1
          = sampleSt.openPositions.length ∧
        (stepSymbol 5 sampleF sampleSt ("BTCUSDT", samplePos)).closedPositions
          = sampleSt.closedPositions ++ [closedRecordOf 5 sampleTrades samplePos] ∧
        (closedRecordOf 5 sampleTrades samplePos).pnl
          = (exitPriceOf .LONG sampleTrades samplePos.entryPrice - samplePos.entryPrice)
              * samplePos.quantity ∧
        ∀ s, s ≠ "BTCUSDT" →
          lookupPos (stepSymbol 5 sampleF sampleSt ("BTCUSDT", samplePos)).openPositions s
            = lookupPos sampleSt.openPositions s) :=
  ⟨rfl, by simp [sampleF], by decide, by decide,
    reconciler_closes_long_exactly_once 5 sampleF sampleSt "BTCUSDT" samplePos sampleTrades
      rfl (by simp [sampleF]) (by decide) (by decide)⟩

/-- A poll observation in which the BTCUSDT position fetch throws. -/
def sampleFErr : String → SymbolOutcome := fun s =>
  if s == "BTCUSDT" then .fetchErr else .report (some 1) (.ok [])

/-- Witness for C8: with the BTCUSDT fetch throwing, the poll cycle over
`BTCUSDT :: ETHUSDT` equals the cycle over `ETHUSDT` alone — the failed
symbol is skipped and the remaining one still checked. -/
theorem poll_isolates_per_symbol_errors_witness :
    (sampleFErr "BTCUSDT" = .fetchErr ∨ sampleFErr "BTCUSDT" = .report none (.error ())) ∧
      checkPositionsEntries 5 sampleFErr (("BTCUSDT", samplePos) :: [("ETHUSDT", ethPos)]) sampleSt
        = checkPositionsEntries 5 sampleFErr [("ETHUSDT", ethPos)] sampleSt :=
  ⟨Or.inl (by simp [sampleFErr]),
    poll_isolates_per_symbol_errors 5 sampleFErr sampleSt ("BTCUSDT", samplePos)
      [("ETHUSDT", ethPos)] (Or.inl (by simp [sampleFErr]))⟩

/-- Witness for C10: with an empty fetched trade list, the closure of the
sample LONG position records exit price = entry price and zero P&L. -/
theorem no_close_trade_zero_pnl_witness :
    ([] : List Trade).find? (isCloseTrade samplePos.direction) = none ∧
      ((handlePositionClosed 7 [] "BTCUSDT" samplePos sampleSt).closedPositions
          = sampleSt.closedPositions ++ [closedRecordOf 7 [] samplePos] ∧
        (closedRecordOf 7 [] samplePos).exitPrice = samplePos.entryPrice ∧
        (closedRecordOf 7 [] samplePos).pnl = 0 ∧
        (closedRecordOf 7 [] samplePos).pnlPercent = 0) :=
  ⟨rfl, no_close_trade_zero_pnl 7 [] "BTCUSDT" samplePos sampleSt rfl⟩

/-! ## SigningEngine frame property (`createWeb3Signature` +
`signedRequest`, asterdex.service.js:581-694)

JS objects are mutable references, so the no-mutation claim is stated over
an explicit object store: references are naturals, each mapped to an
ordered key-value list. The signing path of the client builds
`allParams = {...params, nonce, user, signer}` — a fresh object — and later
`signedRequest` assigns `signedParams.signature = signature` on that fresh
object; the caller's object is only read. The earlier client variant
(asterdex.service.js:87-166) receives a plain string and rebuilds the
parameter list without touching `params` at all. -/

/-- A reference-indexed store of JS parameter objects. -/
abbrev Store : Type := List (ℕ × List (String × String))

/-- Reading the object held by a reference. -/
def lookupRef (σ : Store) (r : ℕ) : Option (List (String × String)) :=
  (σ.find? (fun e => e.1 == r)).map (·.2)

/-- Allocating: a reference strictly larger than every allocated one. -/
def freshRef (σ : Store) : ℕ :=
  (σ.map Prod.fst).foldr max 0 + 1

/-- JS property assignment `o[k] = v`: overwrite in place, else append. -/
def objSet (o : List (String × String)) (k v : String) : List (String × String) :=
  if o.any (fun e => e.1 == k) then
    o.map (fun e => if e.1 == k then (k, v) else e)
  else
    o ++ [(k, v)]

/-- The object spread `{...params, nonce: nonce.toString(), user, signer}`
(asterdex.service.js:585-590). -/
def spreadWithIdentity (params : List (String × String)) (nonce : ℕ)
    (user signer : String) : List (String × String) :=
  objSet (objSet (objSet params "nonce" (toString nonce)) "user" user) "signer" signer

/-- Insertion into a sorted key list (ascending). -/
def insertSorted (k : String) : List String → List String
  | [] => [k]
  | x :: xs => if (compare k x).isLE then k :: x :: xs else x :: insertSorted k xs

/-- `Object.keys(allParams).sort()`. -/
def sortKeys (ks : List String) : List String :=
  ks.foldr insertSorted []

/-- Property read `o[k]` (empty string for a missing key). -/
def objGet (o : List (String × String)) (k : String) : String :=
  ((o.find? (fun e => e.1 == k)).map (·.2)).getD ""

/-- The canonical sorted `key=value&...` string signed by the client
(asterdex.service.js:592-596). -/
def canonicalParamString (o : List (String × String)) : String :=
  String.intercalate "&" ((sortKeys (o.map Prod.fst)).map (fun k => k ++ "=" ++ objGet o k))

/-- `createWeb3Signature` (asterdex.service.js:581-640) over the store:
reads the caller's `params` object at `pRef`, builds the fresh augmented
object with nonce/user/signer, signs the canonical string with the
EIP-712 signer `signFn` (ethers is abstracted as a pure function of the
signed string), and returns the new store, the reference of the fresh
object and the signature. -/
def createWeb3Signature (signFn : String → String) (σ : Store) (pRef : ℕ)
    (nonce : ℕ) (user signer : String) : Store × ℕ × String :=
  let params := (lookupRef σ pRef).getD []
  let allParams := spreadWithIdentity params nonce user signer
  let paramString := canonicalParamString allParams
  (σ ++ [(freshRef σ, allParams)], freshRef σ, signFn paramString)

/-- In-place overwrite of the object held by a reference. -/
def updateRef (σ : Store) (r : ℕ) (o : List (String × String)) : Store :=
  σ.map (fun e => if e.1 == r then (r, o) else e)

/-- The signing portion of `signedRequest` (asterdex.service.js:656-659):
obtain `{params: signedParams, signature}` from `createWeb3Signature`, then
assign `signedParams.signature = signature` — a mutation of the fresh
augmented object, not of the caller's object. Returns the resulting store
and the reference of the augmented object. -/
def signedRequestSign (signFn : String → String) (σ : Store) (pRef : ℕ)
    (nonce : ℕ) (user signer : String) : Store × ℕ :=
  let res := createWeb3Signature signFn σ pRef nonce user signer
  let signedParams := (lookupRef res.1 res.2.1).getD []
  (updateRef res.1 res.2.1 (objSet signedParams "signature" res.2.2), res.2.1)

theorem mem_le_foldr_max (l : List ℕ) (x : ℕ) (hx : x ∈ l) : x ≤ l.foldr max 0 := by
  induction l with
  | nil => cases hx
  | cons y ys ih =>
    rcases List.mem_cons.mp hx with h | h
    · subst h
      exact le_max_left _ _
    · exact le_trans (ih h) (le_max_right _ _)

/-- A fresh reference is not yet allocated. -/
theorem freshRef_not_mem (σ : Store) : freshRef σ ∉ σ.map Prod.fst := by
  intro h
  have h2 := mem_le_foldr_max (σ.map Prod.fst) (freshRef σ) h
  unfold freshRef at h2
  omega

/-- Appending a new allocation does not change the object of an already
allocated reference. -/
theorem lookupRef_append_of_mem (σ τ : Store) (r : ℕ) (h : r ∈ σ.map Prod.fst) :
    lookupRef (σ ++ τ) r = lookupRef σ r := by
  unfold lookupRef
  induction σ with
  | nil => simp at h
  | cons e es ih =>
    by_cases hbe : (e.1 == r) = true
    · simp [List.cons_append, List.find?_cons, hbe]
    · have hr : r ∈ es.map Prod.fst := by
        simp only [List.map_cons, List.mem_cons] at h
        rcases h with h | h
        · exact absurd (beq_iff_eq.mpr h.symm) hbe
        · exact h
      have hf : (e.1 == r) = false := by simpa using hbe
      simp only [List.cons_append, List.find?_cons, hf]
      exact ih hr

/-- Overwriting one reference does not change the object of a different
reference. -/
theorem lookupRef_updateRef_ne (σ : Store) (q : ℕ) (o : List (String × String)) (r : ℕ)
    (h : r ≠ q) : lookupRef (updateRef σ q o) r = lookupRef σ r := by
  unfold lookupRef updateRef
  induction σ with
  | nil => rfl
  | cons e es ih =>
    simp only [List.map_cons]
    by_cases heq : e.1 = q
    · have hqr : (q == r) = false := beq_eq_false_iff_ne.mpr (Ne.symm h)
      have her : (e.1 == r) = false := heq ▸ hqr
      rw [if_pos (beq_iff_eq.mpr heq), List.find?_cons_of_neg _ (by simp [hqr]),
        List.find?_cons_of_neg _ (by simp [her])]
      exact ih
    · rw [if_neg (by simpa using heq)]
      by_cases hre : (e.1 == r) = true
      · simp [List.find?_cons, hre]
      · have hf : (e.1 == r) = false := by simpa using hre
        simp only [List.find?_cons, hf]
        exact ih

/-- C9: producing a signature never mutates the caller's parameter object.
After the whole signing path of `signedRequest` — building the augmented
object, signing, and attaching `signature` — the object held by the
caller's reference is exactly what it was before; nonce, user, signer and
signature live only on the separately built object. -/
theorem sign_never_mutates_caller_params (signFn : String → String) (σ : Store) (pRef : ℕ)
    (nonce : ℕ) (user signer : String) (h : pRef ∈ σ.map Prod.fst) :
    lookupRef (signedRequestSign signFn σ pRef nonce user signer).1 pRef = lookupRef σ pRef := by
  have hne : pRef ≠ freshRef σ := fun hc => freshRef_not_mem σ (hc ▸ h)
  show lookupRef (updateRef (σ ++ [(freshRef σ, _)]) (freshRef σ) _) pRef = lookupRef σ pRef
  rw [lookupRef_updateRef_ne _ _ _ _ hne, lookupRef_append_of_mem _ _ _ h]

/-- Witness for C9: a concrete one-object store holding
`{symbol: BTCUSDT, side: BUY}` at reference 1 is unchanged by the signing
path. -/
theorem sign_never_mutates_caller_params_witness :
    (1 : ℕ) ∈ ([(1, [("symbol", "BTCUSDT"), ("side", "BUY")])] : Store).map Prod.fst ∧
      lookupRef
          (signedRequestSign (fun s => s) [(1, [("symbol", "BTCUSDT"), ("side", "BUY")])]
              1 42 "0xUSER" "0xSIGNER").1 1
        = lookupRef [(1, [("symbol", "BTCUSDT"), ("side", "BUY")])] 1 :=
  ⟨by simp,
    sign_never_mutates_caller_params (fun s => s) [(1, [("symbol", "BTCUSDT"), ("side", "BUY")])]
      1 42 "0xUSER" "0xSIGNER" (by simp)⟩

end AsterDex
